import Mathlib

/-!
Verification of the tower-style service / middleware examples:
a shallow embedding of the timeout middleware (tower-timeout.rs),
the logging middleware (tower-axum.rs) and the combinator-based
timeout handler (tower-basic.rs), with theorems about the race
semantics, transparency, readiness pass-through and error taxonomy.

Time is modelled by a discrete clock: the external driver polls an
in-flight call at instants 0, 1, 2, ...; a future is characterised by
the instant at which it becomes ready.
-/

namespace Tower

/-- Rust's core::task::Poll. -/
inductive Poll (α : Type) where
  | ready (a : α)
  | pending
deriving Repr, DecidableEq

/-- Deterministic model of an in-flight asynchronous computation (the future
returned by an inner service's call): pending at every instant strictly
before resolveAt, and ready with result from instant resolveAt on. -/
structure InnerFuture (ε ρ : Type) where
  resolveAt : Nat
  result : Except ε ρ
deriving Repr

/-- Polling the inner computation at instant t. -/
def InnerFuture.poll (f : InnerFuture ε ρ) (t : Nat) : Poll (Except ε ρ) :=
  if f.resolveAt ≤ t then Poll.ready f.result else Poll.pending

/-- Model of tokio::time::Sleep: ready exactly once the deadline has elapsed. -/
structure Sleep where
  deadline : Nat
deriving Repr, DecidableEq

/-- Polling the sleep timer at instant t. -/
def Sleep.poll (s : Sleep) (t : Nat) : Poll Unit :=
  if s.deadline ≤ t then Poll.ready () else Poll.pending

/-- A tower Service over requests Req with error type ε and response type ρ:
poll_ready observed at a given instant, and call producing the in-flight
computation for a request. -/
structure Service (Req ε ρ : Type) where
  pollReady : Nat → Poll (Except ε Unit)
  call : Req → InnerFuture ε ρ

/-- The external response driver (the runtime behind .await): polls the given
future at successive instants until it is ready or the fuel runs out.
Returns the resolved value (none if fuel ran out) together with the list of
instants at which the future was polled. -/
def driveWith (poll : Nat → Poll α) : Nat → Nat → Option α × List Nat
  | 0, _ => (none, [])
  | fuel + 1, t =>
    match poll t with
    | Poll.ready r => (some r, [t])
    | Poll.pending =>
      let rest := driveWith poll fuel (t + 1)
      (rest.1, t :: rest.2)

/-- A driver that also accumulates the observation events emitted by each
poll; used for the logging middleware. -/
def driveEvents (poll : Nat → Poll α × List E) : Nat → Nat → Option α × List E
  | 0, _ => (none, [])
  | fuel + 1, t =>
    match poll t with
    | (Poll.ready r, evs) => (some r, evs)
    | (Poll.pending, evs) =>
      let rest := driveEvents poll fuel (t + 1)
      (rest.1, evs ++ rest.2)

theorem driveWith_spec (poll : Nat → Poll α) (T : Nat) (v : α)
    (hpend : ∀ u, u < T → poll u = Poll.pending)
    (hready : poll T = Poll.ready v) :
    ∀ fuel t, t ≤ T → T < t + fuel →
      (driveWith poll fuel t).1 = some v ∧
        ∀ u ∈ (driveWith poll fuel t).2, u ≤ T := by
  intro fuel
  induction fuel with
  | zero =>
    intro t ht hlt
    omega
  | succ n ih =>
    intro t ht hlt
    rcases eq_or_lt_of_le ht with heq | hlt2
    · subst heq
      simp [driveWith, hready]
    · have hp := hpend t hlt2
      have hrec := ih (t + 1) hlt2 (by omega)
      simp only [driveWith, hp]
      refine ⟨hrec.1, ?_⟩
      intro u hu
      simp only [List.mem_cons] at hu
      rcases hu with rfl | hu
      · omega
      · exact hrec.2 u hu

/-- A concrete inner service: always ready, every call resolves at instant 1
with the response 42. -/
def fastSvc : Service Nat Nat Nat :=
  { pollReady := fun _ => Poll.ready (Except.ok ())
    call := fun _ => { resolveAt := 1, result := Except.ok 42 } }

/-- A concrete inner service whose calls resolve only at instant 9. -/
def slowSvc : Service Nat Nat Nat :=
  { pollReady := fun _ => Poll.ready (Except.ok ())
    call := fun _ => { resolveAt := 9, result := Except.ok 42 } }

/-- A concrete inner service whose calls fail immediately with domain error 7. -/
def errSvc : Service Nat Nat Nat :=
  { pollReady := fun _ => Poll.ready (Except.ok ())
    call := fun _ => { resolveAt := 0, result := Except.error 7 } }

theorem driveWith_result_of_some (poll : Nat → Poll α) :
    ∀ fuel t r, (driveWith poll fuel t).1 = some r → ∃ u, poll u = Poll.ready r := by
  intro fuel
  induction fuel with
  | zero =>
    intro t r h
    simp [driveWith] at h
  | succ n ih =>
    intro t r h
    cases hp : poll t with
    | ready v =>
      simp only [driveWith, hp] at h
      obtain rfl : v = r := Option.some.inj h
      exact ⟨t, hp⟩
    | pending =>
      simp only [driveWith, hp] at h
      exact ih (t + 1) r h

end Tower

namespace TowerTimeout

open Tower

/-- The stack's common error type of tower-timeout.rs: a BoxError holds either
the inner service's error (produced by the err.into() conversions) or the
TimeoutError value introduced by the timeout middleware. -/
inductive BoxError (ε : Type) where
  | inner (e : ε)
  | timeoutError
deriving Repr, DecidableEq

/-- The map_err conversion applied to the inner result: responses pass through
unchanged, errors are converted into the common error type. -/
def convertResult (r : Except ε ρ) : Except (BoxError ε) ρ :=
  match r with
  | Except.ok v => Except.ok v
  | Except.error e => Except.error (BoxError.inner e)

/-- Timeout service wrapping an inner service with a deadline duration. -/
structure Timeout (σ : Type) where
  inner : σ
  timeout : Nat

/-- Timeout::new stores the inner service and the duration. -/
def Timeout.new (inner : σ) (timeout : Nat) : Timeout σ :=
  { inner := inner, timeout := timeout }

/-- The in-flight call of the timeout middleware: the inner call's future and
the deadline timer, advanced together. -/
structure ResponseFuture (ε ρ : Type) where
  response_future : InnerFuture ε ρ
  sleep : Sleep

/-- Timeout::poll_ready: self.inner.poll_ready(cx).map_err(into). -/
def Timeout.poll_ready (s : Timeout (Service Req ε ρ)) (t : Nat) :
    Poll (Except (BoxError ε) Unit) :=
  match s.inner.pollReady t with
  | Poll.ready (Except.ok ()) => Poll.ready (Except.ok ())
  | Poll.ready (Except.error e) => Poll.ready (Except.error (BoxError.inner e))
  | Poll.pending => Poll.pending

/-- Timeout::call: creates the inner response future and a sleep for the
configured duration, wrapped in a ResponseFuture. -/
def Timeout.call (s : Timeout (Service Req ε ρ)) (req : Req) : ResponseFuture ε ρ :=
  { response_future := s.inner.call req, sleep := { deadline := s.timeout } }

/-- ResponseFuture::poll from tower-timeout.rs: first poll the inner response
future and return its result (error converted) if ready; otherwise poll the
sleep and return the timeout error if it has elapsed; otherwise pending. -/
def ResponseFuture.poll (f : ResponseFuture ε ρ) (t : Nat) :
    Poll (Except (BoxError ε) ρ) :=
  match f.response_future.poll t with
  | Poll.ready result => Poll.ready (convertResult result)
  | Poll.pending =>
    match f.sleep.poll t with
    | Poll.ready () => Poll.ready (Except.error BoxError.timeoutError)
    | Poll.pending => Poll.pending

/-- Driving one request through the timeout middleware: the result and the
list of instants at which the in-flight call (and hence the inner
computation, which is polled first on every advance) was polled. -/
def driveTimeout (svc : Service Req ε ρ) (d : Nat) (req : Req) (fuel : Nat) :
    Option (Except (BoxError ε) ρ) × List Nat :=
  driveWith (fun t => ResponseFuture.poll (Timeout.call (Timeout.new svc d) req) t) fuel 0

theorem timeout_call_response_future (svc : Service Req ε ρ) (d : Nat) (req : Req) :
    (Timeout.call (Timeout.new svc d) req).response_future = svc.call req := rfl

theorem timeout_call_sleep (svc : Service Req ε ρ) (d : Nat) (req : Req) :
    (Timeout.call (Timeout.new svc d) req).sleep = { deadline := d } := rfl

theorem responseFuture_poll_pending (f : ResponseFuture ε ρ) (t : Nat)
    (h1 : t < f.response_future.resolveAt) (h2 : t < f.sleep.deadline) :
    ResponseFuture.poll f t = Poll.pending := by
  simp [ResponseFuture.poll, InnerFuture.poll, Sleep.poll, Nat.not_le.mpr h1, Nat.not_le.mpr h2]

theorem responseFuture_poll_inner_ready (f : ResponseFuture ε ρ) (t : Nat)
    (h : f.response_future.resolveAt ≤ t) :
    ResponseFuture.poll f t = Poll.ready (convertResult f.response_future.result) := by
  simp [ResponseFuture.poll, InnerFuture.poll, h]

theorem responseFuture_poll_sleep_ready (f : ResponseFuture ε ρ) (t : Nat)
    (h1 : t < f.response_future.resolveAt) (h2 : f.sleep.deadline ≤ t) :
    ResponseFuture.poll f t = Poll.ready (Except.error BoxError.timeoutError) := by
  simp [ResponseFuture.poll, InnerFuture.poll, Sleep.poll, Nat.not_le.mpr h1, h2]

theorem driveTimeout_inner_first (svc : Service Req ε ρ) (d : Nat) (req : Req)
    (fuel : Nat) (hle : (svc.call req).resolveAt ≤ d)
    (hfuel : (svc.call req).resolveAt < fuel) :
    (driveTimeout svc d req fuel).1 = some (convertResult (svc.call req).result) ∧
      ∀ u ∈ (driveTimeout svc d req fuel).2, u ≤ (svc.call req).resolveAt := by
  have hpend : ∀ u, u < (svc.call req).resolveAt →
      ResponseFuture.poll (Timeout.call (Timeout.new svc d) req) u = Poll.pending := by
    intro u hu
    exact responseFuture_poll_pending _ u hu (by simpa using lt_of_lt_of_le hu hle)
  have hready : ResponseFuture.poll (Timeout.call (Timeout.new svc d) req)
      (svc.call req).resolveAt = Poll.ready (convertResult (svc.call req).result) :=
    responseFuture_poll_inner_ready _ _ (le_refl _)
  exact driveWith_spec _ _ _ hpend hready fuel 0 (Nat.zero_le _) (by omega)

theorem driveTimeout_sleep_first (svc : Service Req ε ρ) (d : Nat) (req : Req)
    (fuel : Nat) (hlt : d < (svc.call req).resolveAt) (hfuel : d < fuel) :
    (driveTimeout svc d req fuel).1 = some (Except.error BoxError.timeoutError) ∧
      ∀ u ∈ (driveTimeout svc d req fuel).2, u ≤ d := by
  have hpend : ∀ u, u < d →
      ResponseFuture.poll (Timeout.call (Timeout.new svc d) req) u = Poll.pending := by
    intro u hu
    apply responseFuture_poll_pending
    · rw [timeout_call_response_future]
      omega
    · rw [timeout_call_sleep]
      exact hu
  have hready : ResponseFuture.poll (Timeout.call (Timeout.new svc d) req) d =
      Poll.ready (Except.error BoxError.timeoutError) :=
    responseFuture_poll_sleep_ready _ _ (by simpa using hlt) (le_refl _)
  exact driveWith_spec _ _ _ hpend hready fuel 0 (Nat.zero_le _) (by omega)

/-- Claim C1: for every inner service and every request whose inner
computation resolves strictly before the configured deadline, driving the
timeout middleware's in-flight call resolves to the inner service's result
unchanged, apart from converting the inner error type into the stack's
common error type. -/
theorem timeout_before_deadline_transparent (svc : Service Req ε ρ) (d : Nat) (req : Req)
    (fuel : Nat) (hlt : (svc.call req).resolveAt < d)
    (hfuel : (svc.call req).resolveAt < fuel) :
    (driveTimeout svc d req fuel).1 = some (convertResult (svc.call req).result) :=
  (driveTimeout_inner_first svc d req fuel (le_of_lt hlt) hfuel).1

/-- Witness for C1: a service resolving at instant 1 with response 42, under a
deadline of 5, yields the unchanged response through the timeout middleware. -/
theorem timeout_before_deadline_transparent_witness :
    (driveTimeout fastSvc 5 0 6).1 = some (Except.ok 42) :=
  timeout_before_deadline_transparent fastSvc 5 0 6 (by decide) (by decide)

/-- Claim C2: for every inner service and every request whose inner
computation takes longer than the configured deadline, driving the timeout
middleware's in-flight call resolves with the fixed deadline-exceeded error
regardless of the inner computation's would-be result, and every poll of the
in-flight call (which polls the inner computation) happens at an instant at
most the deadline and strictly before the inner resolution: after resolving,
the inner computation is never polled again and its result is abandoned. -/
theorem timeout_deadline_exceeded_abandons (svc : Service Req ε ρ) (d : Nat) (req : Req)
    (fuel : Nat) (hlt : d < (svc.call req).resolveAt) (hfuel : d < fuel) :
    (driveTimeout svc d req fuel).1 = some (Except.error BoxError.timeoutError) ∧
      ∀ u ∈ (driveTimeout svc d req fuel).2,
        u ≤ d ∧ u < (svc.call req).resolveAt := by
  obtain ⟨h1, h2⟩ := driveTimeout_sleep_first svc d req fuel hlt hfuel
  exact ⟨h1, fun u hu => ⟨h2 u hu, by have := h2 u hu; omega⟩⟩

/-- Witness for C2: a service resolving only at instant 9, under a deadline of
4, yields the deadline-exceeded error and is only polled at instants up to 4. -/
theorem timeout_deadline_exceeded_abandons_witness :
    (driveTimeout slowSvc 4 0 9).1 = some (Except.error BoxError.timeoutError) ∧
      ∀ u ∈ (driveTimeout slowSvc 4 0 9).2, u ≤ 4 ∧ u < (slowSvc.call 0).resolveAt :=
  timeout_deadline_exceeded_abandons slowSvc 4 0 9 (by decide) (by decide)

/-- Claim C6: every error produced by a timeout-wrapped call is either the
inner service's error converted into the common error type or the single
deadline-exceeded variant, and the deadline-exceeded variant is distinct
from every converted inner-service error. -/
theorem middleware_never_swallows_error (svc : Service Req ε ρ) (d : Nat) (req : Req)
    (fuel : Nat) (b : BoxError ε)
    (h : (driveTimeout svc d req fuel).1 = some (Except.error b)) :
    (b = BoxError.timeoutError ∨
        ∃ e, b = BoxError.inner e ∧ (svc.call req).result = Except.error e) ∧
      ∀ e : ε, BoxError.inner e ≠ BoxError.timeoutError := by
  refine ⟨?_, fun e hcontra => by cases hcontra⟩
  obtain ⟨u, hu⟩ := driveWith_result_of_some _ fuel 0 _ h
  by_cases hin : (svc.call req).resolveAt ≤ u
  · rw [responseFuture_poll_inner_ready _ u (by simpa using hin)] at hu
    have heq := Poll.ready.inj hu
    cases hres : (svc.call req).result with
    | ok v =>
      rw [show (Timeout.call (Timeout.new svc d) req).response_future = svc.call req from rfl,
        hres] at heq
      simp [convertResult] at heq
    | error e =>
      rw [show (Timeout.call (Timeout.new svc d) req).response_future = svc.call req from rfl,
        hres] at heq
      simp only [convertResult] at heq
      exact Or.inr ⟨e, (Except.error.inj heq).symm, rfl⟩
  · by_cases hsl : d ≤ u
    · rw [responseFuture_poll_sleep_ready _ u (by simpa using Nat.lt_of_not_le hin)
        (by simpa using hsl)] at hu
      have heq := Poll.ready.inj hu
      exact Or.inl (Except.error.inj heq).symm
    · rw [responseFuture_poll_pending _ u (by simpa using Nat.lt_of_not_le hin)
        (by simpa using Nat.lt_of_not_le hsl)] at hu
      cases hu

/-- Witness for C6: an immediately failing service under a deadline of 5
surfaces its converted domain error, which is distinct from the timeout
variant. -/
theorem middleware_never_swallows_error_witness :
    (BoxError.inner 7 = BoxError.timeoutError ∨
        ∃ e, BoxError.inner 7 = BoxError.inner e ∧ (errSvc.call 0).result = Except.error e) ∧
      ∀ e : Nat, BoxError.inner e ≠ BoxError.timeoutError :=
  middleware_never_swallows_error errSvc 5 0 1 (BoxError.inner 7) (by rfl)

/-- Claim C10: on every poll of the timeout middleware's in-flight call the
inner computation is checked before the deadline timer, so when both are
ready in the same scheduling turn the inner service's result — not the
deadline-exceeded error — is returned. -/
theorem tie_break_favors_inner (f : ResponseFuture ε ρ) (t : Nat)
    (hinner : f.response_future.poll t = Poll.ready f.response_future.result)
    (_hsleep : f.sleep.poll t = Poll.ready ()) :
    ResponseFuture.poll f t = Poll.ready (convertResult f.response_future.result) := by
  simp [ResponseFuture.poll, hinner]

/-- A concrete in-flight call in which the inner computation and the deadline
timer become ready at the same instant 3. -/
def tieFuture : ResponseFuture Nat Nat :=
  { response_future := { resolveAt := 3, result := Except.ok 9 }
    sleep := { deadline := 3 } }

/-- Witness for C10: with inner resolution and deadline both at instant 3, the
poll at instant 3 returns the inner response, not the timeout error. -/
theorem tie_break_favors_inner_witness :
    ResponseFuture.poll tieFuture 3 = Poll.ready (Except.ok 9) :=
  tie_break_favors_inner tieFuture 3 (by rfl) (by rfl)

end TowerTimeout

namespace TowerAxum

open Tower

/-- Observation events emitted by the logging middleware of tower-axum.rs via
its tracing calls: one on each readiness check, one logging the request on
call, and one logging the response when the inner future resolves with a
success. -/
inductive LogEvent (Req ρ : Type) where
  | pollReadyLog
  | requestLog (req : Req)
  | responseLog (resp : ρ)
deriving Repr, DecidableEq

/-- The logging middleware service wrapping an inner service. -/
structure MyLogService (σ : Type) where
  inner : σ

/-- MyLogService::new. -/
def MyLogService.new (inner : σ) : MyLogService σ :=
  { inner := inner }

/-- The Layer producing the logging middleware. -/
structure MyLogLayer where

/-- MyLogLayer::layer: wraps the inner service in MyLogService. -/
def MyLogLayer.layer (_l : MyLogLayer) (inner : σ) : MyLogService σ :=
  MyLogService.new inner

/-- MyLogService::poll_ready: emits the readiness observation and forwards the
inner readiness result unchanged. -/
def MyLogService.poll_ready (s : MyLogService (Service Req ε ρ)) (t : Nat) :
    Poll (Except ε Unit) × List (LogEvent Req ρ) :=
  (s.inner.pollReady t, [LogEvent.pollReadyLog])

/-- The in-flight call of the logging middleware: just the inner future. -/
structure ResponseFuture (ε ρ : Type) where
  response_future : InnerFuture ε ρ

/-- MyLogService::call: logs the request and wraps the inner call's future. -/
def MyLogService.call (s : MyLogService (Service Req ε ρ)) (req : Req) :
    ResponseFuture ε ρ × List (LogEvent Req ρ) :=
  ({ response_future := s.inner.call req }, [LogEvent.requestLog req])

/-- ResponseFuture::poll from tower-axum.rs: ready!(inner.poll(cx))? then log
the response. An inner error is propagated by the question-mark operator
before the response log line runs, so no event is emitted for it. -/
def ResponseFuture.poll (Req : Type) (f : ResponseFuture ε ρ) (t : Nat) :
    Poll (Except ε ρ) × List (LogEvent Req ρ) :=
  match f.response_future.poll t with
  | Poll.pending => (Poll.pending, [])
  | Poll.ready (Except.error e) => (Poll.ready (Except.error e), [])
  | Poll.ready (Except.ok resp) => (Poll.ready (Except.ok resp), [LogEvent.responseLog resp])

/-- Submitting one request through the logging middleware and driving it: the
result together with all observation events emitted along the way. -/
def callAndDrive (s : MyLogService (Service Req ε ρ)) (req : Req) (fuel : Nat) :
    Option (Except ε ρ) × List (LogEvent Req ρ) :=
  let c := MyLogService.call s req
  let d := driveEvents (fun t => ResponseFuture.poll Req c.1 t) fuel 0
  (d.1, c.2 ++ d.2)

theorem driveEvents_fst_eq_driveWith (Req : Type) (f : ResponseFuture ε ρ) :
    ∀ fuel t, (driveEvents (fun u => ResponseFuture.poll Req f u) fuel t).1 =
      (driveWith (fun u => f.response_future.poll u) fuel t).1 := by
  intro fuel
  induction fuel with
  | zero =>
    intro t
    rfl
  | succ n ih =>
    intro t
    cases hp : f.response_future.poll t with
    | ready r =>
      cases r with
      | ok v =>
        have hpoll : ResponseFuture.poll Req f t =
            (Poll.ready (Except.ok v), [LogEvent.responseLog v]) := by
          simp [ResponseFuture.poll, hp]
        simp [driveEvents, driveWith, hpoll, hp]
      | error e =>
        have hpoll : ResponseFuture.poll Req f t =
            (Poll.ready (Except.error e), ([] : List (LogEvent Req ρ))) := by
          simp [ResponseFuture.poll, hp]
        simp [driveEvents, driveWith, hpoll, hp]
    | pending =>
      have hpoll : ResponseFuture.poll Req f t =
          (Poll.pending, ([] : List (LogEvent Req ρ))) := by
        simp [ResponseFuture.poll, hp]
      simp only [driveEvents, driveWith, hpoll, hp, List.nil_append]
      exact ih (t + 1)

theorem driveEvents_spec (poll : Nat → Poll α × List E) (T : Nat) (v : α) (evs : List E)
    (hpend : ∀ u, u < T → poll u = (Poll.pending, []))
    (hready : poll T = (Poll.ready v, evs)) :
    ∀ fuel t, t ≤ T → T < t + fuel → driveEvents poll fuel t = (some v, evs) := by
  intro fuel
  induction fuel with
  | zero =>
    intro t ht hlt
    omega
  | succ n ih =>
    intro t ht hlt
    rcases eq_or_lt_of_le ht with heq | hlt2
    · subst heq
      simp [driveEvents, hready]
    · have hp := hpend t hlt2
      have hrec := ih (t + 1) hlt2 (by omega)
      simp [driveEvents, hp, hrec]

/-- Claim C3: the logging middleware is value-transparent: for every inner
service and request, driving the logging-wrapped call yields a result
value-equal to driving the inner service's own in-flight computation with
the same driver; the middleware only adds observation events. -/
theorem logging_transparent (svc : Service Req ε ρ) (req : Req) (fuel : Nat) :
    (callAndDrive (MyLogService.new svc) req fuel).1 =
      (driveWith (fun t => (svc.call req).poll t) fuel 0).1 :=
  driveEvents_fst_eq_driveWith Req (MyLogService.call (MyLogService.new svc) req).1 fuel 0

/-- The observation events emitted after resolution: a response log for a
success, nothing for an error. -/
def postEvents (Req : Type) (r : Except ε ρ) : List (LogEvent Req ρ) :=
  match r with
  | Except.ok resp => [LogEvent.responseLog resp]
  | Except.error _ => []

/-- Counterexample to claim C4: through the logging middleware, an inner
service failing immediately with domain error 7 resolves to that error while
emitting only the single request observation: no observation event of the
error is ever emitted, because the question-mark operator propagates the
error before the response log line runs. -/
theorem logging_error_event_counterexample :
    callAndDrive (MyLogService.new errSvc) 3 1 =
      (some (Except.error 7), [LogEvent.requestLog 3]) := by
  rfl

/-- Claim C4 (amended): for every request through the logging middleware,
exactly one pre-call request observation is emitted, and exactly one
post-resolution response observation is emitted when the inner computation
resolves with a success; when it resolves with an error, the error is
propagated unchanged but no post-resolution observation event is emitted. -/
theorem logging_events (svc : Service Req ε ρ) (req : Req) (fuel : Nat)
    (hfuel : (svc.call req).resolveAt < fuel) :
    callAndDrive (MyLogService.new svc) req fuel =
      (some (svc.call req).result,
        LogEvent.requestLog req :: postEvents Req (svc.call req).result) := by
  have hpend : ∀ u, u < (svc.call req).resolveAt →
      ResponseFuture.poll Req (MyLogService.call (MyLogService.new svc) req).1 u =
        (Poll.pending, []) := by
    intro u hu
    simp [ResponseFuture.poll, InnerFuture.poll, MyLogService.call, MyLogService.new,
      Nat.not_le.mpr hu]
  have hready : ResponseFuture.poll Req (MyLogService.call (MyLogService.new svc) req).1
      (svc.call req).resolveAt =
        (Poll.ready (svc.call req).result, postEvents Req (svc.call req).result) := by
    cases hres : (svc.call req).result with
    | ok v =>
      simp [ResponseFuture.poll, InnerFuture.poll, MyLogService.call, MyLogService.new,
        hres, postEvents]
    | error e =>
      simp [ResponseFuture.poll, InnerFuture.poll, MyLogService.call, MyLogService.new,
        hres, postEvents]
  have hdrive := driveEvents_spec _ _ _ _ hpend hready fuel 0 (Nat.zero_le _) (by omega)
  have hshape : callAndDrive (MyLogService.new svc) req fuel =
      ((driveEvents (fun t => ResponseFuture.poll Req
          (MyLogService.call (MyLogService.new svc) req).1 t) fuel 0).1,
        [LogEvent.requestLog req] ++
          (driveEvents (fun t => ResponseFuture.poll Req
            (MyLogService.call (MyLogService.new svc) req).1 t) fuel 0).2) := rfl
  rw [hshape, hdrive]
  simp

/-- Witness for C4 (amended): a service resolving at instant 1 with response
42 yields one request event followed by one response event. -/
theorem logging_events_witness :
    callAndDrive (MyLogService.new fastSvc) 2 2 =
      (some (Except.ok 42), [LogEvent.requestLog 2, LogEvent.responseLog 42]) :=
  logging_events fastSvc 2 2 (by decide)

/-- Claim C5: the timeout middleware's readiness check reports ready exactly
when the inner service's does, is pending exactly when the inner one is, and
only converts a readiness error into the common error type; the logging
middleware's readiness check forwards the inner result unchanged and emits
one observation event on each check. Hence neither middleware reports ready
before its inner service does. -/
theorem readiness_passthrough (svc : Service Req ε ρ) (d : Nat) (t : Nat) :
    (TowerTimeout.Timeout.poll_ready (TowerTimeout.Timeout.new svc d) t =
        Poll.ready (Except.ok ()) ↔ svc.pollReady t = Poll.ready (Except.ok ()))
    ∧ (TowerTimeout.Timeout.poll_ready (TowerTimeout.Timeout.new svc d) t = Poll.pending ↔
        svc.pollReady t = Poll.pending)
    ∧ (∀ e, svc.pollReady t = Poll.ready (Except.error e) →
        TowerTimeout.Timeout.poll_ready (TowerTimeout.Timeout.new svc d) t =
          Poll.ready (Except.error (TowerTimeout.BoxError.inner e)))
    ∧ (MyLogService.poll_ready (MyLogService.new svc) t).1 = svc.pollReady t
    ∧ (MyLogService.poll_ready (MyLogService.new svc) t).2 = [LogEvent.pollReadyLog] := by
  refine ⟨?_, ?_, ?_, rfl, rfl⟩
  · cases hp : svc.pollReady t with
    | ready r =>
      cases r with
      | ok u =>
        cases u
        simp [TowerTimeout.Timeout.poll_ready, TowerTimeout.Timeout.new, hp]
      | error e =>
        simp [TowerTimeout.Timeout.poll_ready, TowerTimeout.Timeout.new, hp]
    | pending =>
      simp [TowerTimeout.Timeout.poll_ready, TowerTimeout.Timeout.new, hp]
  · cases hp : svc.pollReady t with
    | ready r =>
      cases r with
      | ok u =>
        cases u
        simp [TowerTimeout.Timeout.poll_ready, TowerTimeout.Timeout.new, hp]
      | error e =>
        simp [TowerTimeout.Timeout.poll_ready, TowerTimeout.Timeout.new, hp]
    | pending =>
      simp [TowerTimeout.Timeout.poll_ready, TowerTimeout.Timeout.new, hp]
  · intro e hp
    simp [TowerTimeout.Timeout.poll_ready, TowerTimeout.Timeout.new, hp]

/-- Witness for C5: instantiated at a concrete always-ready service, deadline
5 and instant 0. -/
theorem readiness_passthrough_witness :
    (TowerTimeout.Timeout.poll_ready (TowerTimeout.Timeout.new fastSvc 5) 0 =
        Poll.ready (Except.ok ()) ↔ fastSvc.pollReady 0 = Poll.ready (Except.ok ()))
    ∧ (TowerTimeout.Timeout.poll_ready (TowerTimeout.Timeout.new fastSvc 5) 0 = Poll.pending ↔
        fastSvc.pollReady 0 = Poll.pending)
    ∧ (∀ e, fastSvc.pollReady 0 = Poll.ready (Except.error e) →
        TowerTimeout.Timeout.poll_ready (TowerTimeout.Timeout.new fastSvc 5) 0 =
          Poll.ready (Except.error (TowerTimeout.BoxError.inner e)))
    ∧ (MyLogService.poll_ready (MyLogService.new fastSvc) 0).1 = fastSvc.pollReady 0
    ∧ (MyLogService.poll_ready (MyLogService.new fastSvc) 0).2 = [LogEvent.pollReadyLog] :=
  readiness_passthrough fastSvc 5 0

/-- Claim C9: applying a Layer has no effect beyond wrapping: MyLogLayer's
layer returns exactly MyLogService wrapping the given inner service,
Timeout::new stores exactly the given inner service and duration unchanged,
and the deadline timer is only created at call time from the stored
duration, alongside the unchanged inner call. -/
theorem layer_construction_pure (σ τ : Type) (inner : σ) (innerT : τ) (d : Nat)
    (l : MyLogLayer) (svc : Service Req ε ρ) (req : Req) :
    MyLogLayer.layer l inner = MyLogService.new inner
    ∧ (MyLogService.new inner).inner = inner
    ∧ (TowerTimeout.Timeout.new innerT d).inner = innerT
    ∧ (TowerTimeout.Timeout.new innerT d).timeout = d
    ∧ (TowerTimeout.Timeout.call (TowerTimeout.Timeout.new svc d) req).sleep =
        { deadline := d }
    ∧ (TowerTimeout.Timeout.call (TowerTimeout.Timeout.new svc d) req).response_future =
        svc.call req :=
  ⟨rfl, rfl, rfl, rfl, rfl, rfl⟩

end TowerAxum

namespace TowerBasic

open Tower

/-- The combinator-based timeout middleware of tower-basic.rs, wrapping an
inner handler with a deadline duration. -/
structure EvoTimeoutHandler (σ : Type) where
  inner_handler : σ
  duration : Nat

/-- EvoTimeoutHandler::new stores the handler and the duration. -/
def EvoTimeoutHandler.new (handler : σ) (duration : Nat) : EvoTimeoutHandler σ :=
  { inner_handler := handler, duration := duration }

/-- The in-flight call of the combinator-based timeout middleware: the inner
call's future, the deadline, and the value T::Error::from(elapsed) used when
the deadline wins. -/
structure EvoFuture (ε ρ : Type) where
  inner : InnerFuture ε ρ
  duration : Nat
  fromElapsed : ε

/-- The future returned by EvoTimeoutHandler::call: it awaits
tokio::time::timeout(duration, inner_handler.call(request)), returning the
inner result on Ok(response) and Err(T::Error::from(elapsed)) on
Err(elapsed). The tokio timeout combinator is an external dependency; it
polls the wrapped future first and its deadline timer second, modelled here
accordingly. -/
def EvoFuture.poll (f : EvoFuture ε ρ) (t : Nat) : Poll (Except ε ρ) :=
  match f.inner.poll t with
  | Poll.ready r => Poll.ready r
  | Poll.pending =>
    if f.duration ≤ t then Poll.ready (Except.error f.fromElapsed) else Poll.pending

/-- EvoTimeoutHandler::call builds the race of the inner call against the
configured duration. -/
def EvoTimeoutHandler.call (h : EvoTimeoutHandler (Service Req ε ρ)) (fromElapsed : ε)
    (req : Req) : EvoFuture ε ρ :=
  { inner := h.inner_handler.call req, duration := h.duration, fromElapsed := fromElapsed }

/-- Driving one request through the combinator-based timeout middleware. -/
def driveEvo (svc : Service Req ε ρ) (d : Nat) (fromElapsed : ε) (req : Req) (fuel : Nat) :
    Option (Except ε ρ) × List Nat :=
  driveWith
    (fun t => EvoFuture.poll (EvoTimeoutHandler.call (EvoTimeoutHandler.new svc d)
      fromElapsed req) t) fuel 0

theorem evo_call_inner (svc : Service Req ε ρ) (d : Nat) (fe : ε) (req : Req) :
    (EvoTimeoutHandler.call (EvoTimeoutHandler.new svc d) fe req).inner = svc.call req := rfl

theorem evo_call_duration (svc : Service Req ε ρ) (d : Nat) (fe : ε) (req : Req) :
    (EvoTimeoutHandler.call (EvoTimeoutHandler.new svc d) fe req).duration = d := rfl

theorem evo_call_fromElapsed (svc : Service Req ε ρ) (d : Nat) (fe : ε) (req : Req) :
    (EvoTimeoutHandler.call (EvoTimeoutHandler.new svc d) fe req).fromElapsed = fe := rfl

theorem evoFuture_poll_pending (f : EvoFuture ε ρ) (t : Nat)
    (h1 : t < f.inner.resolveAt) (h2 : t < f.duration) :
    EvoFuture.poll f t = Poll.pending := by
  simp [EvoFuture.poll, InnerFuture.poll, Nat.not_le.mpr h1, Nat.not_le.mpr h2]

theorem evoFuture_poll_inner_ready (f : EvoFuture ε ρ) (t : Nat)
    (h : f.inner.resolveAt ≤ t) :
    EvoFuture.poll f t = Poll.ready f.inner.result := by
  simp [EvoFuture.poll, InnerFuture.poll, h]

theorem evoFuture_poll_elapsed (f : EvoFuture ε ρ) (t : Nat)
    (h1 : t < f.inner.resolveAt) (h2 : f.duration ≤ t) :
    EvoFuture.poll f t = Poll.ready (Except.error f.fromElapsed) := by
  simp [EvoFuture.poll, InnerFuture.poll, Nat.not_le.mpr h1, h2]

theorem driveEvo_inner_first (svc : Service Req ε ρ) (d : Nat) (fromElapsed : ε) (req : Req)
    (fuel : Nat) (hle : (svc.call req).resolveAt ≤ d)
    (hfuel : (svc.call req).resolveAt < fuel) :
    (driveEvo svc d fromElapsed req fuel).1 = some (svc.call req).result := by
  have hpend : ∀ u, u < (svc.call req).resolveAt →
      EvoFuture.poll (EvoTimeoutHandler.call (EvoTimeoutHandler.new svc d) fromElapsed req) u =
        Poll.pending := by
    intro u hu
    apply evoFuture_poll_pending
    · rw [evo_call_inner]
      exact hu
    · rw [evo_call_duration]
      omega
  have hready : EvoFuture.poll
      (EvoTimeoutHandler.call (EvoTimeoutHandler.new svc d) fromElapsed req)
      (svc.call req).resolveAt = Poll.ready (svc.call req).result := by
    have h := evoFuture_poll_inner_ready
      (EvoTimeoutHandler.call (EvoTimeoutHandler.new svc d) fromElapsed req)
      (svc.call req).resolveAt (by rw [evo_call_inner])
    rw [evo_call_inner] at h
    exact h
  exact (driveWith_spec _ _ _ hpend hready fuel 0 (Nat.zero_le _) (by omega)).1

theorem driveEvo_elapsed_first (svc : Service Req ε ρ) (d : Nat) (fromElapsed : ε) (req : Req)
    (fuel : Nat) (hlt : d < (svc.call req).resolveAt) (hfuel : d < fuel) :
    (driveEvo svc d fromElapsed req fuel).1 = some (Except.error fromElapsed) := by
  have hpend : ∀ u, u < d →
      EvoFuture.poll (EvoTimeoutHandler.call (EvoTimeoutHandler.new svc d) fromElapsed req) u =
        Poll.pending := by
    intro u hu
    apply evoFuture_poll_pending
    · rw [evo_call_inner]
      omega
    · rw [evo_call_duration]
      exact hu
  have hready : EvoFuture.poll
      (EvoTimeoutHandler.call (EvoTimeoutHandler.new svc d) fromElapsed req) d =
        Poll.ready (Except.error fromElapsed) := by
    have h := evoFuture_poll_elapsed
      (EvoTimeoutHandler.call (EvoTimeoutHandler.new svc d) fromElapsed req) d
      (by rw [evo_call_inner]; exact hlt) (by rw [evo_call_duration])
    rw [evo_call_fromElapsed] at h
    exact h
  exact (driveWith_spec _ _ _ hpend hready fuel 0 (Nat.zero_le _) (by omega)).1

/-- Claim C7: the manual poll-based timeout middleware and the
combinator-based one implement the same race semantics: with the same inner
service, deadline and request, when the inner computation finishes no later
than the deadline both resolve to the inner result (modulo each stack's
error-type conversion), and when the deadline elapses first both resolve to
their timeout error. -/
theorem manual_evo_same_race (svc : Service Req ε ρ) (d : Nat) (req : Req)
    (fromElapsed : ε) (fuel : Nat)
    (hfuel : min (svc.call req).resolveAt d < fuel) :
    ((svc.call req).resolveAt ≤ d →
      (TowerTimeout.driveTimeout svc d req fuel).1 =
          some (TowerTimeout.convertResult (svc.call req).result)
        ∧ (driveEvo svc d fromElapsed req fuel).1 = some (svc.call req).result)
    ∧ (d < (svc.call req).resolveAt →
      (TowerTimeout.driveTimeout svc d req fuel).1 =
          some (Except.error TowerTimeout.BoxError.timeoutError)
        ∧ (driveEvo svc d fromElapsed req fuel).1 = some (Except.error fromElapsed)) := by
  constructor
  · intro hle
    have hf : (svc.call req).resolveAt < fuel := by omega
    exact ⟨(TowerTimeout.driveTimeout_inner_first svc d req fuel hle hf).1,
      driveEvo_inner_first svc d fromElapsed req fuel hle hf⟩
  · intro hlt
    have hf : d < fuel := by omega
    exact ⟨(TowerTimeout.driveTimeout_sleep_first svc d req fuel hlt hf).1,
      driveEvo_elapsed_first svc d fromElapsed req fuel hlt hf⟩

/-- Witness for C7: a service resolving at instant 1 with response 42 under
deadline 5 yields the same successful response through both middlewares. -/
theorem manual_evo_same_race_witness :
    (TowerTimeout.driveTimeout fastSvc 5 0 6).1 = some (Except.ok 42)
    ∧ (driveEvo fastSvc 5 7 0 6).1 = some (Except.ok 42) := by
  have h := manual_evo_same_race fastSvc 5 0 7 6 (by decide)
  exact h.1 (by decide)

end TowerBasic

namespace Drivers

/-- The service-protocol operations a driver can invoke, in invocation order:
a poll_ready that reported ready, a poll_ready that reported pending, or a
call (request submission). -/
inductive DriverEvent where
  | pollReadyReady
  | pollReadyPending
  | call
deriving Repr, DecidableEq

def honorsReadinessAux : Option DriverEvent → List DriverEvent → Bool
  | _, [] => true
  | prev, DriverEvent.call :: rest =>
    decide (prev = some DriverEvent.pollReadyReady) &&
      honorsReadinessAux (some DriverEvent.call) rest
  | _, e :: rest => honorsReadinessAux (some e) rest

/-- A driver trace honors the readiness protocol when every call is
immediately preceded by a poll_ready that reported ready. -/
def honorsReadiness (tr : List DriverEvent) : Bool :=
  honorsReadinessAux none tr

/-- The service operations invoked by main in tower-timeout.rs: it submits one
request via timeout_service.call(()) and awaits it, never invoking
poll_ready (the source itself remarks that backpressure was not invoked). -/
def towerTimeoutMainTrace : List DriverEvent := [DriverEvent.call]

/-- The service operations invoked by Server::run in tower-basic.rs: it
submits the mock request via handler.call(request) and awaits it; the
EvoHandler contract has no readiness operation at all. -/
def serverRunTrace : List DriverEvent := [DriverEvent.call]

/-- Counterexample to claim C8: neither driver in the repository performs a
readiness check before submitting; both traces violate the readiness
protocol. -/
theorem drivers_violate_readiness :
    honorsReadiness towerTimeoutMainTrace = false ∧
      honorsReadiness serverRunTrace = false := by
  decide

/-- Claim C8 (amended): the repository's drivers skip the readiness protocol
entirely: main in tower-timeout.rs and Server::run in tower-basic.rs each
submit exactly one call and perform no readiness check at all. -/
theorem drivers_skip_readiness :
    towerTimeoutMainTrace.count DriverEvent.call = 1
    ∧ towerTimeoutMainTrace.count DriverEvent.pollReadyReady = 0
    ∧ towerTimeoutMainTrace.count DriverEvent.pollReadyPending = 0
    ∧ serverRunTrace.count DriverEvent.call = 1
    ∧ serverRunTrace.count DriverEvent.pollReadyReady = 0
    ∧ serverRunTrace.count DriverEvent.pollReadyPending = 0 := by
  decide

end Drivers
